import Mathlib

/-!
Shallow embedding of `comstock_processor.py` (SEED-platform/comstock-processor).

The program downloads and filters building-energy metadata and per-building
time-series files.  We model:
  * file contents as an inductive (`parquetTable` / `csvTable` / `bytes`),
    where a table is a list of rows, a row being an association list from
    column name to a `Value` (string or integer, matching pandas dtypes);
  * the local filesystem as an association list from path strings to
    contents (a later write shadows earlier entries on lookup);
  * the network as an oracle `http : String → Option FileContent` — `some c`
    models an HTTP 200 response with body `c`, `none` models any non-success
    status; every issued GET is logged in `World.net`;
  * printed messages (`print` / `tqdm.write`) in `World.msgs`;
  * Python exceptions (`FileNotFoundError`, parse failures, `KeyError`) as
    `PyError` through `Except`.

`process_building_time_series` uses `ThreadPoolExecutor.map`, which submits
one task per row and collects results in submission order; the tasks write
to pairwise distinct paths per building id and share no mutable state, so the
fan-out is modeled as the order-preserving sequential fold `runTasks`.
Directories (for the constructor's `mkdir`) are modeled separately as a list
of existing directory paths, a directory path being its component list.
-/

namespace ComStock

/-- A pandas cell value: string or integer column dtypes. -/
inductive Value
  | str (s : String)
  | int (n : Int)
deriving DecidableEq, Repr

/-- Python `str()` of a cell value, as used in f-strings. -/
def Value.toPyStr : Value → String
  | .str s => s
  | .int n => toString n

/-- A row of a DataFrame: association list column-name ↦ value. -/
abbrev Row := List (String × Value)

/-- `row[key]` lookup; `none` models a raised `KeyError`. -/
def Row.find : Row → String → Option Value
  | [], _ => none
  | (k, v) :: r, key => if k = key then some v else Row.find r key

/-- Contents of a file on disk or of an HTTP response body. -/
inductive FileContent
  | parquetTable (t : List Row)
  | csvTable (t : List Row)
  | bytes (b : List Nat)
deriving DecidableEq, Repr

/-- The local filesystem: path ↦ contents, newest write first. -/
abbrev FS := List (String × FileContent)

def fsLookup : FS → String → Option FileContent
  | [], _ => none
  | (p, c) :: fs, path => if p = path then some c else fsLookup fs path

/-- `Path.exists()` for files. -/
def fsExists (fs : FS) (p : String) : Bool :=
  (fsLookup fs p).isSome

/-- Writing a file (`open(path, "wb").write(...)`, `to_csv`). -/
def fsWrite (fs : FS) (p : String) (c : FileContent) : FS :=
  (p, c) :: fs

/-- Observable state threaded through the program: the filesystem, the log
of URLs requested over the network, and the printed messages. -/
structure World where
  fs : FS
  net : List String
  msgs : List String
deriving DecidableEq, Repr

/-- Python exceptions that the program can raise. -/
inductive PyError
  | fileNotFound (p : String)
  | parseError (p : String)
  | keyError (k : String)
deriving DecidableEq, Repr

deriving instance DecidableEq for Except

/-- Constructor arguments held on the `ComStockProcessor` instance. -/
structure Config where
  state : String
  county_name : String
  building_type : String
  upgrade : String
  base_dir : List String
deriving DecidableEq, Repr

/-- `self.base_url` (fixed string in the source). -/
def base_url : String :=
  "https://oedi-data-lake.s3.amazonaws.com/nrel-pds-building-stock/end-use-load-profiles-for-us-building-stock/2024/comstock_amy2018_release_1/"

/-- `self.metadata_url = self.base_url + "metadata"`. -/
def metadata_url : String := base_url ++ "metadata"

/-- `self.time_series_url = self.base_url + "timeseries_individual_buildings"`. -/
def time_series_url : String := base_url ++ "timeseries_individual_buildings"

/-- The URL of the raw metadata file: `f"{self.metadata_url}/baseline.parquet"`. -/
def baselineUrl : String := metadata_url ++ "/baseline.parquet"

/-- `ComStockProcessor.download_file`: issue one GET; on status 200 write the
body to `save_path`, otherwise print a failure notice and write nothing. -/
def download_file (http : String → Option FileContent) (url : String)
    (save_path : String) (w : World) : World :=
  let w := { w with net := w.net ++ [url] }
  match http url with
  | some content => { w with fs := fsWrite w.fs save_path content }
  | none => { w with msgs := w.msgs ++ ["Failed to download file: " ++ url] }

/-- Path of the raw metadata cache: `save_dir / "comstock_metadata.parquet"`. -/
def rawPath (save_dir : String) : String :=
  save_dir ++ "/comstock_metadata.parquet"

/-- Path of the filtered projection:
`save_dir / f"{state}-{county_name}-{building_type}-{upgrade}-selected_metadata.csv"`. -/
def csvPath (cfg : Config) (save_dir : String) : String :=
  save_dir ++ "/" ++ cfg.state ++ "-" ++ cfg.county_name ++ "-" ++
    cfg.building_type ++ "-" ++ cfg.upgrade ++ "-selected_metadata.csv"

/-- A pyarrow filter tuple `(column, op, value)`; the source only builds
`"=="` filters against string values. -/
abbrev Filt := String × String × String

/-- One equality filter holds on a row. -/
def filterHolds (r : Row) (f : Filt) : Bool :=
  decide (f.2.1 = "==" ∧ Row.find r f.1 = some (Value.str f.2.2))

/-- `pd.read_parquet(..., filters=...)`: with `none` the table is returned
unfiltered; with `some fl` the tuples are ANDed (single-conjunction DNF). -/
def applyFilters : Option (List Filt) → List Row → List Row
  | none, t => t
  | some fl, t => t.filter (fun r => fl.all (fun f => filterHolds r f))

/-- The filter list built in `process_metadata` (lines 84–95), together with
the warning printed when a county is given without a state. -/
def metadataFilters (cfg : Config) : List Filt × List String :=
  let f₁ : List Filt :=
    if cfg.state ≠ "All" then [("in.state", "==", cfg.state)] else []
  let fm₂ : List Filt × List String :=
    if cfg.county_name ≠ "All" then
      if cfg.state = "All" then
        ([], ["County is specified, but State is not. Ignoring County..."])
      else
        ([("in.county_name", "==", cfg.state ++ ", " ++ cfg.county_name)], [])
    else ([], [])
  let f₃ : List Filt :=
    if cfg.building_type ≠ "All" then
      [("in.comstock_building_type", "==", cfg.building_type)]
    else []
  (f₁ ++ fm₂.1 ++ f₃, fm₂.2)

/-- `reset_index(drop=False)` on the default positional index: lift the
index into a leading `"index"` column. -/
def resetIndex (t : List Row) : List Row :=
  ((List.range t.length).zip t).map (fun p => ("index", Value.int p.1) :: p.2)

/-- `pd.read_parquet` of a local file with optional filters. -/
def read_parquet (fs : FS) (p : String) (filters : Option (List Filt)) :
    Except PyError (List Row) :=
  match fsLookup fs p with
  | none => .error (.fileNotFound p)
  | some (.parquetTable t) => .ok (applyFilters filters t)
  | some _ => .error (.parseError p)

/-- `pd.read_csv` of a local file. -/
def read_csv (fs : FS) (p : String) : Except PyError (List Row) :=
  match fsLookup fs p with
  | none => .error (.fileNotFound p)
  | some (.csvTable t) => .ok t
  | some _ => .error (.parseError p)

/-- Lines 67–73 of `process_metadata`: ensure the raw metadata file, either
by skipping (it exists) or by one download attempt. -/
def metaStep1 (http : String → Option FileContent) (save_dir : String)
    (w : World) : World :=
  if fsExists w.fs (rawPath save_dir) then
    { w with msgs := w.msgs ++ ["Metadata parquet already exists. Skipping download."] }
  else
    download_file http baselineUrl (rawPath save_dir)
      { w with msgs := w.msgs ++ ["Downloading metadata file: " ++ baselineUrl] }

/-- `ComStockProcessor.process_metadata`. -/
def process_metadata (cfg : Config) (http : String → Option FileContent)
    (save_dir : String) (w : World) : Except PyError (World × List Row) :=
  let w₁ := metaStep1 http save_dir w
  let output_csv := csvPath cfg save_dir
  if fsExists w₁.fs output_csv then
    let w₂ := { w₁ with msgs := w₁.msgs ++
      ["Metadata csv already exists. Skipping creation. Delete " ++ output_csv ++
        " if you want to save again."] }
    match read_csv w₂.fs output_csv with
    | .error e => .error e
    | .ok meta_df => .ok (w₂, meta_df)
  else
    let fm := metadataFilters cfg
    let w₂ := { w₁ with msgs := w₁.msgs ++ fm.2 }
    match read_parquet w₂.fs (rawPath save_dir)
        (if fm.1.length = 0 then none else some fm.1) with
    | .error e => .error e
    | .ok t =>
      let meta_df := resetIndex t
      .ok ({ w₂ with fs := fsWrite w₂.fs output_csv (.csvTable meta_df) }, meta_df)

/-- The canonical local time-series filename
`save_dir / f"bldg_id-{building_id}-upgrade-{self.upgrade}.parquet"`. -/
def tsPath (save_dir building_id upgrade : String) : String :=
  save_dir ++ "/bldg_id-" ++ building_id ++ "-upgrade-" ++ upgrade ++ ".parquet"

/-- The per-building time-series URL composed in `download_task`. -/
def tsUrl (upgrade state building_id : String) : String :=
  time_series_url ++ "/by_state/upgrade=" ++ upgrade ++ "/state=" ++ state ++
    "/" ++ building_id ++ "-" ++ upgrade ++ ".parquet"

/-- The closure `download_task` inside `process_building_time_series`. -/
def download_task (cfg : Config) (http : String → Option FileContent)
    (save_dir : String) (w : World) (row : Row) :
    Except PyError (World × String × String) :=
  match Row.find row "bldg_id" with
  | none => .error (.keyError "bldg_id")
  | some v =>
    let building_id := v.toPyStr
    let save_path := tsPath save_dir building_id cfg.upgrade
    if fsExists w.fs save_path then
      .ok (w, save_path, building_id)
    else
      match Row.find row "in.state" with
      | none => .error (.keyError "in.state")
      | some st =>
        let url := tsUrl cfg.upgrade st.toPyStr building_id
        .ok (download_file http url save_path w, save_path, building_id)

/-- `executor.map(download_task, data_rows)` collected in submission order:
tasks touch pairwise distinct per-building files and share no mutable state,
so the pool is modeled as this order-preserving fold. -/
def runTasks (cfg : Config) (http : String → Option FileContent)
    (save_dir : String) (w : World) :
    List Row → Except PyError (World × List (String × String))
  | [] => .ok (w, [])
  | r :: rs =>
    match download_task cfg http save_dir w r with
    | .error e => .error e
    | .ok (w', pr) =>
      match runTasks cfg http save_dir w' rs with
      | .error e => .error e
      | .ok (w'', prs) => .ok (w'', pr :: prs)

/-- `ComStockProcessor.process_building_time_series`: fan out one task per
row, then `zip(*results) if results else ([], [])`. -/
def process_building_time_series (cfg : Config)
    (http : String → Option FileContent) (data_frame : List Row)
    (save_dir : String) (w : World) :
    Except PyError (World × (List String × List String)) :=
  match runTasks cfg http save_dir w data_frame with
  | .error e => .error e
  | .ok (w', results) =>
    .ok (w', (results.map (fun p => p.1), results.map (fun p => p.2)))

/-- `Path.mkdir()` with default arguments: single level, non-recursive;
raises `FileNotFoundError` when the parent directory does not exist. -/
def mkdirSingle (dirs : List (List String)) (d : List String) :
    Except PyError (List (List String)) :=
  if d.dropLast ∈ dirs then .ok (d :: dirs)
  else .error (.fileNotFound (String.intercalate "/" d))

/-- `ComStockProcessor.__init__` restricted to its filesystem effect (lines
36–37): create `base_dir` if it does not exist, with a plain `mkdir()`. -/
def initProcessor (state county_name building_type upgrade : String)
    (base_dir : List String) (dirs : List (List String)) :
    Except PyError (List (List String) × Config) :=
  let cfg : Config := ⟨state, county_name, building_type, upgrade, base_dir⟩
  if base_dir ∈ dirs then .ok (dirs, cfg)
  else
    match mkdirSingle dirs base_dir with
    | .error e => .error e
    | .ok dirs' => .ok (dirs', cfg)

/-! ### Concrete fixtures used to instantiate the theorems -/

/-- A California office row as it appears in the metadata table. -/
def rowCA : Row :=
  [("bldg_id", Value.int 1), ("in.state", Value.str "CA"),
   ("in.county_name", Value.str "CA, Alameda"),
   ("in.comstock_building_type", Value.str "Office")]

/-- A Delaware retail row. -/
def rowDE : Row :=
  [("bldg_id", Value.int 2), ("in.state", Value.str "DE"),
   ("in.county_name", Value.str "DE, Kent"),
   ("in.comstock_building_type", Value.str "Retail")]

/-- A small two-state metadata table. -/
def exTable : List Row := [rowCA, rowDE]

/-- A row lacking the `"in.state"` column. -/
def rowNoState : Row := [("bldg_id", Value.int 3)]

/-- A server for which every GET fails (non-success status). -/
def httpDown : String → Option FileContent := fun _ => none

/-- A server that serves the metadata file and nothing else. -/
def httpMetaEx : String → Option FileContent := fun u =>
  if u = baselineUrl then some (FileContent.parquetTable exTable) else none

/-- A server that serves bytes for every GET. -/
def httpBytes : String → Option FileContent := fun _ => some (FileContent.bytes [7])

def cfgAll : Config := ⟨"All", "All", "All", "0", []⟩

def cfgCA : Config := ⟨"CA", "All", "All", "0", []⟩

def cfgCnty : Config := ⟨"All", "Kent", "All", "0", []⟩

/-- Empty world. -/
def wEmpty : World := ⟨[], [], []⟩

/-- World holding only the raw metadata cache under `"d"`. -/
def wRaw : World := ⟨[(rawPath "d", FileContent.parquetTable exTable)], [], []⟩

/-- World after a first `process_metadata cfgAll` run from `wRaw`. -/
def wMeta1 : World :=
  ⟨fsWrite wRaw.fs (csvPath cfgAll "d") (FileContent.csvTable (resetIndex exTable)),
   [], ["Metadata parquet already exists. Skipping download."]⟩

/-- World holding a stale projection cache for `cfgAll` and no raw file. -/
def wCsvStale : World := ⟨[(csvPath cfgAll "d", FileContent.csvTable [])], [], []⟩

/-- World holding a stale projection for the county query plus the raw file. -/
def wCsvCnty : World :=
  ⟨[(csvPath cfgCnty "d", FileContent.csvTable []),
    (rawPath "d", FileContent.parquetTable exTable)], [], []⟩

/-- World in which both example buildings' time-series files are cached. -/
def wTs : World :=
  ⟨[(tsPath "ts" "1" "0", FileContent.bytes [1]),
    (tsPath "ts" "2" "0", FileContent.bytes [2])], [], []⟩

/-- World in which building 3's time-series file is cached. -/
def wTs3 : World := ⟨[(tsPath "ts" "3" "0", FileContent.bytes [3])], [], []⟩

/-- Last character of a string, used to separate the cache filenames. -/
def lastChar (s : String) : Option Char := s.data.getLast?

/-! ### Helper lemmas -/

theorem fsLookup_eq_none (fs : FS) (p : String) (h : fsExists fs p = false) :
    fsLookup fs p = none := by
  cases hl : fsLookup fs p with
  | none => rfl
  | some c => rw [fsExists, hl] at h; cases h

theorem fsExists_of_lookup (fs : FS) (p : String) (c : FileContent)
    (h : fsLookup fs p = some c) : fsExists fs p = true := by
  rw [fsExists, h]; rfl

theorem fsLookup_write_self (fs : FS) (p : String) (c : FileContent) :
    fsLookup (fsWrite fs p c) p = some c := by
  simp [fsWrite, fsLookup]

theorem fsLookup_write_ne (fs : FS) (p q : String) (c : FileContent)
    (h : p ≠ q) : fsLookup (fsWrite fs p c) q = fsLookup fs q := by
  simp [fsWrite, fsLookup, h]

theorem fsExists_write_mono (fs : FS) (p q : String) (c : FileContent)
    (h : fsExists fs q = true) : fsExists (fsWrite fs p c) q = true := by
  by_cases hpq : p = q
  · subst hpq; exact fsExists_of_lookup _ _ _ (fsLookup_write_self fs p c)
  · rw [fsExists, fsLookup_write_ne fs p q c hpq]; exact h

theorem lastChar_append (a b : String) (h : b.data ≠ []) :
    lastChar (a ++ b) = lastChar b := by
  unfold lastChar
  rw [String.data_append]
  cases hgl : b.data.getLast? with
  | none => exact absurd (List.getLast?_eq_none_iff.mp hgl) h
  | some x => simp [List.getLast?_append, hgl]

theorem rawPath_ne_csvPath (cfg : Config) (d : String) :
    rawPath d ≠ csvPath cfg d := by
  intro h
  have h1 : lastChar (rawPath d) = some 't' := by
    rw [rawPath, lastChar_append _ _ (by decide)]; decide
  have h2 : lastChar (csvPath cfg d) = some 'v' := by
    rw [csvPath, lastChar_append _ _ (by decide)]; decide
  rw [h, h2] at h1
  cases h1

theorem metaStep1_of_exists (http : String → Option FileContent) (d : String)
    (w : World) (h : fsExists w.fs (rawPath d) = true) :
    metaStep1 http d w =
      { w with msgs := w.msgs ++ ["Metadata parquet already exists. Skipping download."] } := by
  simp [metaStep1, h]

theorem metaStep1_lookup_ne (http : String → Option FileContent) (d : String)
    (w : World) (q : String) (hq : q ≠ rawPath d) :
    fsLookup (metaStep1 http d w).fs q = fsLookup w.fs q := by
  unfold metaStep1
  split
  · rfl
  · unfold download_file
    cases http baselineUrl with
    | none => rfl
    | some c => exact fsLookup_write_ne _ _ _ _ (Ne.symm hq)

theorem metaStep1_raw_lookup (http : String → Option FileContent) (d : String)
    (w : World) (t : List Row)
    (h : fsLookup w.fs (rawPath d) = some (.parquetTable t) ∨
      (fsExists w.fs (rawPath d) = false ∧ http baselineUrl = some (.parquetTable t))) :
    fsLookup (metaStep1 http d w).fs (rawPath d) = some (.parquetTable t) := by
  cases h with
  | inl h =>
    have hex := fsExists_of_lookup _ _ _ h
    simp [metaStep1, hex, h]
  | inr h =>
    simp [metaStep1, h.1, download_file, h.2, fsLookup_write_self]

theorem download_task_pair (cfg : Config) (http : String → Option FileContent)
    (d : String) (w : World) (row : Row) (w' : World) (p b : String)
    (h : download_task cfg http d w row = .ok (w', p, b)) :
    ∃ v, Row.find row "bldg_id" = some v ∧ b = v.toPyStr ∧
      p = tsPath d v.toPyStr cfg.upgrade := by
  unfold download_task at h
  cases hb : Row.find row "bldg_id" with
  | none => rw [hb] at h; cases h
  | some v =>
    rw [hb] at h
    dsimp only at h
    refine ⟨v, rfl, ?_⟩
    by_cases hx : fsExists w.fs (tsPath d v.toPyStr cfg.upgrade) = true
    · rw [if_pos hx] at h
      cases h
      exact ⟨rfl, rfl⟩
    · rw [if_neg hx] at h
      cases hs : Row.find row "in.state" with
      | none => rw [hs] at h; cases h
      | some st =>
        rw [hs] at h
        dsimp only at h
        cases h
        exact ⟨rfl, rfl⟩

theorem runTasks_align (cfg : Config) (http : String → Option FileContent)
    (d : String) (rows : List Row) :
    ∀ (w w' : World) (res : List (String × String)),
      runTasks cfg http d w rows = .ok (w', res) →
      res = rows.map (fun r =>
        (tsPath d ((Row.find r "bldg_id").getD (Value.str "")).toPyStr cfg.upgrade,
         ((Row.find r "bldg_id").getD (Value.str "")).toPyStr)) := by
  induction rows with
  | nil =>
    intro w w' res h
    cases h
    rfl
  | cons r rs ih =>
    intro w w' res h
    unfold runTasks at h
    cases hdt : download_task cfg http d w r with
    | error e => rw [hdt] at h; cases h
    | ok z =>
      obtain ⟨wa, p, b⟩ := z
      rw [hdt] at h
      dsimp only at h
      cases hrt : runTasks cfg http d wa rs with
      | error e => rw [hrt] at h; cases h
      | ok z₁ =>
        obtain ⟨w₁, prs⟩ := z₁
        rw [hrt] at h
        dsimp only at h
        cases h
        obtain ⟨v, hv, hbv, hpv⟩ := download_task_pair cfg http d w r wa p b hdt
        have hres := ih _ _ _ hrt
        simp [List.map_cons, hres, hv, hbv, hpv]

theorem find_cons_ne (k : String) (v : Value) (r : Row) (key : String)
    (h : k ≠ key) : Row.find ((k, v) :: r) key = Row.find r key := by
  simp [Row.find, h]

theorem mem_resetIndex {t : List Row} {r : Row} (h : r ∈ resetIndex t) :
    ∃ i r₀, r₀ ∈ t ∧ r = ("index", Value.int i) :: r₀ := by
  unfold resetIndex at h
  obtain ⟨⟨i, r₀⟩, hmem, rfl⟩ := List.mem_map.mp h
  exact ⟨i, r₀, (List.of_mem_zip hmem).2, rfl⟩

theorem applyFilters_mem {fl : List Filt} {t : List Row} {r : Row}
    (h : r ∈ applyFilters (some fl) t) (f : Filt) (hf : f ∈ fl) :
    f.2.1 = "==" ∧ Row.find r f.1 = some (Value.str f.2.2) := by
  unfold applyFilters at h
  exact of_decide_eq_true (List.all_eq_true.mp (List.mem_filter.mp h).2 f hf)

theorem state_filt_mem (cfg : Config) (h : cfg.state ≠ "All") :
    ("in.state", "==", cfg.state) ∈ (metadataFilters cfg).1 := by
  simp [metadataFilters, h]

theorem county_filt_mem (cfg : Config) (hs : cfg.state ≠ "All")
    (hc : cfg.county_name ≠ "All") :
    ("in.county_name", "==", cfg.state ++ ", " ++ cfg.county_name) ∈
      (metadataFilters cfg).1 := by
  simp [metadataFilters, hs, hc]

theorem btype_filt_mem (cfg : Config) (h : cfg.building_type ≠ "All") :
    ("in.comstock_building_type", "==", cfg.building_type) ∈
      (metadataFilters cfg).1 := by
  simp [metadataFilters, h]

theorem metadataFilters_len_state (cfg : Config) (h : cfg.state ≠ "All") :
    ¬ (metadataFilters cfg).1 = [] := by
  simp [metadataFilters, h]

theorem metadataFilters_len_btype (cfg : Config) (h : cfg.building_type ≠ "All") :
    ¬ (metadataFilters cfg).1 = [] := by
  simp [metadataFilters, h]

theorem metadataFilters_all (cfg : Config) (h1 : cfg.state = "All")
    (h2 : cfg.county_name = "All") (h3 : cfg.building_type = "All") :
    metadataFilters cfg = ([], []) := by
  simp [metadataFilters, h1, h2, h3]

/-- File existence only grows along the program's effects. -/
def fsSub (w w' : World) : Prop :=
  ∀ q, fsExists w.fs q = true → fsExists w'.fs q = true

theorem download_file_mono (http : String → Option FileContent)
    (url p : String) (w : World) (q : String)
    (h : fsExists w.fs q = true) :
    fsExists (download_file http url p w).fs q = true := by
  unfold download_file
  cases http url with
  | some c => simpa using fsExists_write_mono w.fs p q c h
  | none => simpa using h

theorem download_task_mono (cfg : Config) (http : String → Option FileContent)
    (d : String) (w : World) (row : Row) (w' : World) (p b : String)
    (h : download_task cfg http d w row = .ok (w', p, b)) : fsSub w w' := by
  unfold download_task at h
  cases hb : Row.find row "bldg_id" with
  | none => rw [hb] at h; cases h
  | some v =>
    rw [hb] at h
    dsimp only at h
    by_cases hx : fsExists w.fs (tsPath d v.toPyStr cfg.upgrade) = true
    · rw [if_pos hx] at h
      cases h
      exact fun q hq => hq
    · rw [if_neg hx] at h
      cases hs : Row.find row "in.state" with
      | none => rw [hs] at h; cases h
      | some st =>
        rw [hs] at h
        dsimp only at h
        cases h
        exact fun q hq => download_file_mono http _ _ w q hq

theorem runTasks_mono (cfg : Config) (http : String → Option FileContent)
    (d : String) (rows : List Row) :
    ∀ (w w₁ : World) (res : List (String × String)),
      runTasks cfg http d w rows = .ok (w₁, res) → fsSub w w₁ := by
  induction rows with
  | nil =>
    intro w w₁ res h
    cases h
    exact fun q hq => hq
  | cons r rs ih =>
    intro w w₁ res h
    unfold runTasks at h
    cases hdt : download_task cfg http d w r with
    | error e => rw [hdt] at h; cases h
    | ok z =>
      obtain ⟨wa, p, b⟩ := z
      rw [hdt] at h
      dsimp only at h
      cases hrt : runTasks cfg http d wa rs with
      | error e => rw [hrt] at h; cases h
      | ok z₁ =>
        obtain ⟨w₂, prs⟩ := z₁
        rw [hrt] at h
        dsimp only at h
        cases h
        exact fun q hq =>
          ih wa _ prs hrt q (download_task_mono cfg http d w r wa p b hdt q hq)

/-- Re-running the fan-out from any world that already holds every file the
first run left behind reproduces the same result pairs; if every produced
path already exists, the world is left completely unchanged. -/
theorem runTasks_rerun (cfg : Config) (http : String → Option FileContent)
    (d : String) (rows : List Row) :
    ∀ (w w₁ : World) (res : List (String × String)) (wS : World),
      runTasks cfg http d w rows = .ok (w₁, res) →
      fsSub w₁ wS →
      ∃ w₂, runTasks cfg http d wS rows = .ok (w₂, res) ∧ fsSub wS w₂ ∧
        ((∀ pr ∈ res, fsExists wS.fs pr.1 = true) → w₂ = wS) := by
  induction rows with
  | nil =>
    intro w w₁ res wS h hS
    cases h
    exact ⟨wS, rfl, fun q hq => hq, fun _ => rfl⟩
  | cons r rs ih =>
    intro w w₁ res wS h hS
    unfold runTasks at h
    cases hdt : download_task cfg http d w r with
    | error e => rw [hdt] at h; cases h
    | ok z =>
      obtain ⟨wa, p, b⟩ := z
      rw [hdt] at h
      dsimp only at h
      cases hrt : runTasks cfg http d wa rs with
      | error e => rw [hrt] at h; cases h
      | ok z₁ =>
        obtain ⟨w₁', prs⟩ := z₁
        rw [hrt] at h
        dsimp only at h
        cases h
        obtain ⟨v, hv, hbv, hpv⟩ := download_task_pair cfg http d w r wa p b hdt
        subst hbv hpv
        by_cases hwp : fsExists wS.fs (tsPath d v.toPyStr cfg.upgrade) = true
        · have hdt2 : download_task cfg http d wS r =
              .ok (wS, tsPath d v.toPyStr cfg.upgrade, v.toPyStr) := by
            simp [download_task, hv, hwp]
          obtain ⟨w₂, hrt2, hsub2, hnoop⟩ := ih wa _ prs wS hrt hS
          refine ⟨w₂, ?_, hsub2, ?_⟩
          · unfold runTasks
            rw [hdt2]
            dsimp only
            rw [hrt2]
          · intro hall
            exact hnoop (fun pr hpr => hall pr (List.mem_cons_of_mem _ hpr))
        · unfold download_task at hdt
          rw [hv] at hdt
          dsimp only at hdt
          by_cases hx : fsExists w.fs (tsPath d v.toPyStr cfg.upgrade) = true
          · rw [if_pos hx] at hdt
            cases hdt
            exact absurd (hS _ (runTasks_mono cfg http d rs _ _ prs hrt _ hx)) hwp
          · rw [if_neg hx] at hdt
            cases hst : Row.find r "in.state" with
            | none => rw [hst] at hdt; cases hdt
            | some st =>
              rw [hst] at hdt
              dsimp only at hdt
              cases hdt
              have hwp' : fsExists wS.fs (tsPath d v.toPyStr cfg.upgrade) = false := by
                simpa using hwp
              have hdt2 : download_task cfg http d wS r =
                  .ok (download_file http (tsUrl cfg.upgrade st.toPyStr v.toPyStr)
                        (tsPath d v.toPyStr cfg.upgrade) wS,
                      tsPath d v.toPyStr cfg.upgrade, v.toPyStr) := by
                simp [download_task, hv, hwp', hst]
              have hS' := fun q hq => download_file_mono http
                (tsUrl cfg.upgrade st.toPyStr v.toPyStr)
                (tsPath d v.toPyStr cfg.upgrade) wS q (hS q hq)
              obtain ⟨w₂, hrt2, hsub2, hnoop⟩ := ih _ _ prs _ hrt hS'
              refine ⟨w₂, ?_, ?_, ?_⟩
              · unfold runTasks
                rw [hdt2]
                dsimp only
                rw [hrt2]
              · exact fun q hq => hsub2 q (download_file_mono http _ _ wS q hq)
              · intro hall
                exact absurd (hall _ (List.mem_cons_self _ _)) hwp

theorem read_csv_ok (fs : FS) (p : String) (t : List Row)
    (h : read_csv fs p = .ok t) : fsLookup fs p = some (.csvTable t) := by
  unfold read_csv at h
  cases hl : fsLookup fs p with
  | none => rw [hl] at h; cases h
  | some c =>
    rw [hl] at h
    cases c with
    | parquetTable tt => cases h
    | csvTable tt => cases h; rfl
    | bytes b => cases h

/-- After any successful `process_metadata` run, the projection file holds
exactly the returned row set. -/
theorem process_metadata_csv_cached (cfg : Config)
    (http : String → Option FileContent) (d : String) (w w₁ : World)
    (t₁ : List Row) (h : process_metadata cfg http d w = .ok (w₁, t₁)) :
    fsLookup w₁.fs (csvPath cfg d) = some (.csvTable t₁) := by
  by_cases hex : fsExists (metaStep1 http d w).fs (csvPath cfg d) = true
  · simp only [process_metadata, hex, if_true] at h
    cases hrc : read_csv (metaStep1 http d w).fs (csvPath cfg d) with
    | error e => rw [hrc] at h; cases h
    | ok tt =>
      rw [hrc] at h
      dsimp only at h
      cases h
      exact read_csv_ok _ _ _ hrc
  · have hex' : fsExists (metaStep1 http d w).fs (csvPath cfg d) = false := by
      simpa using hex
    simp only [process_metadata, hex', Bool.false_eq_true, if_false] at h
    cases hrp : read_parquet (metaStep1 http d w).fs (rawPath d)
        (if (metadataFilters cfg).1.length = 0 then none
         else some (metadataFilters cfg).1) with
    | error e => rw [hrp] at h; cases h
    | ok t =>
      rw [hrp] at h
      dsimp only at h
      cases h
      exact fsLookup_write_self _ _ _

/-! ### Claims -/

/-- C7: for an empty input row set, `process_building_time_series` returns two
empty sequences and leaves the world untouched — no worker task runs and no
network request is issued. -/
theorem ts_empty_rowset (cfg : Config) (http : String → Option FileContent)
    (d : String) (w : World) :
    process_building_time_series cfg http [] d w = .ok (w, ([], [])) := rfl

/-- C3: when a time-series download gets a non-success status, the task still
returns the target path and building id (after logging a failure notice and
requesting the URL), so the caller cannot tell success from failure by the
return value; by contrast `download_file` itself (the metadata path) writes
no file on failure, leaving the filesystem unchanged. -/
theorem ts_failed_download_returns_path (cfg : Config)
    (http : String → Option FileContent) (d : String) (w : World) (row : Row)
    (v st : Value)
    (hb : Row.find row "bldg_id" = some v)
    (hs : Row.find row "in.state" = some st)
    (hx : fsExists w.fs (tsPath d v.toPyStr cfg.upgrade) = false)
    (hh : http (tsUrl cfg.upgrade st.toPyStr v.toPyStr) = none) :
    download_task cfg http d w row =
      .ok ({ w with
               net := w.net ++ [tsUrl cfg.upgrade st.toPyStr v.toPyStr],
               msgs := w.msgs ++
                 ["Failed to download file: " ++ tsUrl cfg.upgrade st.toPyStr v.toPyStr] },
        tsPath d v.toPyStr cfg.upgrade, v.toPyStr) ∧
    ∀ (url p : String) (w₂ : World), http url = none →
      download_file http url p w₂ =
        { w₂ with
            net := w₂.net ++ [url],
            msgs := w₂.msgs ++ ["Failed to download file: " ++ url] } := by
  constructor
  · simp [download_task, hb, hx, hs, download_file, hh]
  · intro url p w₂ h2
    simp [download_file, h2]

theorem ts_failed_download_returns_path_witness :
    download_task cfgAll httpDown "ts" wEmpty rowCA =
      .ok ({ wEmpty with
               net := wEmpty.net ++ [tsUrl "0" "CA" "1"],
               msgs := wEmpty.msgs ++ ["Failed to download file: " ++ tsUrl "0" "CA" "1"] },
        tsPath "ts" "1" "0", "1") :=
  (ts_failed_download_returns_path cfgAll httpDown "ts" wEmpty rowCA
    (Value.int 1) (Value.str "CA") (by decide) (by decide) (by decide) rfl).1

/-- C1: every row returned by the fresh-filter path of `process_metadata`
(no projection cache; the raw table is cached or successfully downloaded)
satisfies all active equality filters with AND semantics: state equals the
query state when it is not "All", county equals the compound "state, county"
string when both are non-wildcard, and building type equals the query
building type when it is not "All"; when all three query fields are "All",
the full metadata table is returned unfiltered (with the positional index
lifted into an ordinary column). -/
theorem metadata_fresh_filter_correct (cfg : Config)
    (http : String → Option FileContent) (d : String) (w : World)
    (t rows : List Row)
    (hcsv : fsExists w.fs (csvPath cfg d) = false)
    (hraw : fsLookup w.fs (rawPath d) = some (.parquetTable t) ∨
      (fsExists w.fs (rawPath d) = false ∧
        http baselineUrl = some (.parquetTable t)))
    (hrun : (process_metadata cfg http d w).map Prod.snd = .ok rows) :
    (∀ r ∈ rows,
      (cfg.state ≠ "All" → Row.find r "in.state" = some (Value.str cfg.state)) ∧
      (cfg.state ≠ "All" → cfg.county_name ≠ "All" →
        Row.find r "in.county_name" =
          some (Value.str (cfg.state ++ ", " ++ cfg.county_name))) ∧
      (cfg.building_type ≠ "All" →
        Row.find r "in.comstock_building_type" =
          some (Value.str cfg.building_type))) ∧
    (cfg.state = "All" → cfg.county_name = "All" → cfg.building_type = "All" →
      rows = resetIndex t) := by
  have hcsv1 : fsExists (metaStep1 http d w).fs (csvPath cfg d) = false := by
    rw [fsExists, metaStep1_lookup_ne http d w _ (rawPath_ne_csvPath cfg d).symm]
    exact hcsv
  have hraw1 := metaStep1_raw_lookup http d w t hraw
  have hrows : rows = resetIndex (applyFilters
      (if (metadataFilters cfg).1 = [] then none
       else some (metadataFilters cfg).1) t) := by
    simp [process_metadata, hcsv1, read_parquet, hraw1, Except.map] at hrun
    exact hrun.symm
  constructor
  · intro r hr
    rw [hrows] at hr
    refine ⟨?_, ?_, ?_⟩
    · intro hne
      rw [if_neg (metadataFilters_len_state cfg hne)] at hr
      obtain ⟨i, r₀, hr₀, rfl⟩ := mem_resetIndex hr
      have hf := applyFilters_mem hr₀ _ (state_filt_mem cfg hne)
      rw [find_cons_ne _ _ _ _ (by decide)]
      exact hf.2
    · intro hs hc
      rw [if_neg (metadataFilters_len_state cfg hs)] at hr
      obtain ⟨i, r₀, hr₀, rfl⟩ := mem_resetIndex hr
      have hf := applyFilters_mem hr₀ _ (county_filt_mem cfg hs hc)
      rw [find_cons_ne _ _ _ _ (by decide)]
      exact hf.2
    · intro hb
      rw [if_neg (metadataFilters_len_btype cfg hb)] at hr
      obtain ⟨i, r₀, hr₀, rfl⟩ := mem_resetIndex hr
      have hf := applyFilters_mem hr₀ _ (btype_filt_mem cfg hb)
      rw [find_cons_ne _ _ _ _ (by decide)]
      exact hf.2
  · intro h1 h2 h3
    rw [hrows]
    simp [metadataFilters_all cfg h1 h2 h3, applyFilters]

theorem metadata_fresh_filter_correct_witness :
    Row.find (("index", Value.int 0) :: rowCA) "in.state" =
      some (Value.str "CA") :=
  ((metadata_fresh_filter_correct cfgCA httpDown "d" wRaw exTable
      [("index", Value.int 0) :: rowCA] (by decide) (Or.inl (by decide))
      (by decide)).1
    (("index", Value.int 0) :: rowCA) (by decide)).1 (by decide)

/-- C2 (amended): if a `process_metadata` call succeeds and afterwards the
raw metadata file exists at the destination (which holds whenever that call
read or downloaded the raw table; only a pre-existing projection combined
with a failed raw download escapes it), then a second call with identical
parameters returns the same row set via the projection cache, performs zero
network access, and leaves the filesystem byte-identical. -/
theorem metadata_idempotent_of_raw_cached (cfg : Config)
    (http : String → Option FileContent) (d : String) (w w₁ : World)
    (t₁ : List Row)
    (h₁ : process_metadata cfg http d w = .ok (w₁, t₁))
    (h₂ : fsExists w₁.fs (rawPath d) = true) :
    (process_metadata cfg http d w₁).map Prod.snd = .ok t₁ ∧
    (process_metadata cfg http d w₁).map (fun p => p.1.net) = .ok w₁.net ∧
    (process_metadata cfg http d w₁).map (fun p => p.1.fs) = .ok w₁.fs := by
  have hcsv := process_metadata_csv_cached cfg http d w w₁ t₁ h₁
  refine ⟨?_, ?_, ?_⟩ <;>
    simp [process_metadata, metaStep1_of_exists http d w₁ h₂, read_csv, hcsv,
      fsExists, Except.map]

theorem metadata_idempotent_of_raw_cached_witness :
    (process_metadata cfgAll httpDown "d" wMeta1).map Prod.snd =
      .ok (resetIndex exTable) ∧
    (process_metadata cfgAll httpDown "d" wMeta1).map (fun p => p.1.net) =
      .ok wMeta1.net ∧
    (process_metadata cfgAll httpDown "d" wMeta1).map (fun p => p.1.fs) =
      .ok wMeta1.fs :=
  metadata_idempotent_of_raw_cached cfgAll httpDown "d" wRaw wMeta1
    (resetIndex exTable) (by decide) (by decide)

/-- C2 (counterexample): from a world holding a stale projection cache and
no raw metadata file, with the remote unreachable, both calls succeed with
equal row sets but the second call still issues a network request (the raw
download is re-attempted before the projection cache is consulted), so "the
second call performs zero network access" is false as stated. -/
theorem metadata_second_call_network_cex :
    (process_metadata cfgAll httpDown "d" wCsvStale).map Prod.snd = .ok [] ∧
    ((process_metadata cfgAll httpDown "d" wCsvStale).bind
      (fun p => process_metadata cfgAll httpDown "d" p.1)).map Prod.snd = .ok [] ∧
    (process_metadata cfgAll httpDown "d" wCsvStale).map
      (fun p => p.1.net.length) = .ok 1 ∧
    ((process_metadata cfgAll httpDown "d" wCsvStale).bind
      (fun p => process_metadata cfgAll httpDown "d" p.1)).map
      (fun p => p.1.net.length) = .ok 2 :=
  ⟨by decide, by decide, by decide, by decide⟩

/-- C4: for an input row set of N rows, `process_building_time_series`
returns a path list and an id list of length N, positionally aligned with
the input iteration order: the i-th path and i-th id are derived from the
i-th row's `"bldg_id"` (the pool collects results in submission order). -/
theorem ts_fanout_order_preserving (cfg : Config)
    (http : String → Option FileContent) (rows : List Row) (d : String)
    (w : World) (paths ids : List String)
    (h : (process_building_time_series cfg http rows d w).map Prod.snd =
      .ok (paths, ids)) :
    paths.length = rows.length ∧ ids.length = rows.length ∧
    paths = rows.map (fun r =>
      tsPath d ((Row.find r "bldg_id").getD (Value.str "")).toPyStr cfg.upgrade) ∧
    ids = rows.map (fun r => ((Row.find r "bldg_id").getD (Value.str "")).toPyStr) := by
  unfold process_building_time_series at h
  cases hrt : runTasks cfg http d w rows with
  | error e => rw [hrt] at h; cases h
  | ok z =>
    obtain ⟨w', res⟩ := z
    rw [hrt] at h
    dsimp only [Except.map] at h
    cases h
    have hres := runTasks_align cfg http d rows w w' res hrt
    subst hres
    refine ⟨by simp, by simp, ?_, ?_⟩ <;> simp [List.map_map, Function.comp]

theorem ts_fanout_order_preserving_witness :
    (["ts/bldg_id-1-upgrade-0.parquet", "ts/bldg_id-2-upgrade-0.parquet"] :
      List String).length = exTable.length ∧
    (["1", "2"] : List String).length = exTable.length := by
  have h := ts_fanout_order_preserving cfgAll httpBytes exTable "ts" wEmpty
    ["ts/bldg_id-1-upgrade-0.parquet", "ts/bldg_id-2-upgrade-0.parquet"]
    ["1", "2"] (by decide)
  exact ⟨h.1, h.2.1⟩

/-- C5 (amended): when a non-wildcard county is supplied with state "All"
and neither query's projection cache exists, `process_metadata` ignores the
county with a logged warning: it returns exactly the outcome (row set, or
error) of the identical query with county set to "All". -/
theorem county_without_state_ignored (county btype upg : String)
    (bd : List String) (hc : county ≠ "All")
    (http : String → Option FileContent) (d : String) (w : World)
    (h1 : fsExists w.fs (csvPath ⟨"All", county, btype, upg, bd⟩ d) = false)
    (h2 : fsExists w.fs (csvPath ⟨"All", "All", btype, upg, bd⟩ d) = false) :
    (process_metadata ⟨"All", county, btype, upg, bd⟩ http d w).map Prod.snd =
      (process_metadata ⟨"All", "All", btype, upg, bd⟩ http d w).map Prod.snd ∧
    ∀ (w' : World) (rows : List Row),
      process_metadata ⟨"All", county, btype, upg, bd⟩ http d w = .ok (w', rows) →
      "County is specified, but State is not. Ignoring County..." ∈ w'.msgs := by
  have h1' : fsExists (metaStep1 http d w).fs
      (csvPath ⟨"All", county, btype, upg, bd⟩ d) = false := by
    rw [fsExists, metaStep1_lookup_ne http d w _ (rawPath_ne_csvPath _ d).symm]
    exact h1
  have h2' : fsExists (metaStep1 http d w).fs
      (csvPath ⟨"All", "All", btype, upg, bd⟩ d) = false := by
    rw [fsExists, metaStep1_lookup_ne http d w _ (rawPath_ne_csvPath _ d).symm]
    exact h2
  have efl : (metadataFilters ⟨"All", county, btype, upg, bd⟩).1 =
      (metadataFilters ⟨"All", "All", btype, upg, bd⟩).1 := by
    simp [metadataFilters, hc]
  constructor
  · simp only [process_metadata, h1', h2', Bool.false_eq_true, if_false]
    rw [efl]
    cases hrp : read_parquet (metaStep1 http d w).fs (rawPath d)
        (if (metadataFilters ⟨"All", "All", btype, upg, bd⟩).1.length = 0 then none
         else some (metadataFilters ⟨"All", "All", btype, upg, bd⟩).1) with
    | error e => rfl
    | ok t => rfl
  · intro w' rows h
    simp only [process_metadata, h1', Bool.false_eq_true, if_false] at h
    cases hrp : read_parquet (metaStep1 http d w).fs (rawPath d)
        (if (metadataFilters ⟨"All", county, btype, upg, bd⟩).1.length = 0 then none
         else some (metadataFilters ⟨"All", county, btype, upg, bd⟩).1) with
    | error e => rw [hrp] at h; cases h
    | ok t =>
      rw [hrp] at h
      dsimp only at h
      cases h
      simp [metadataFilters, hc]

theorem county_without_state_ignored_witness :
    (process_metadata cfgCnty httpDown "d" wRaw).map Prod.snd =
      (process_metadata cfgAll httpDown "d" wRaw).map Prod.snd :=
  (county_without_state_ignored "Kent" "All" "0" [] (by decide) httpDown "d"
    wRaw (by decide) (by decide)).1

/-- C5 (counterexample): with a stale projection cache present for the
county query, the county query returns the cached rows while the identical
query with county "All" filters fresh, so the two result sets differ — the
claim fails as stated once the projection cache can pre-exist. -/
theorem county_without_state_cache_cex :
    (process_metadata cfgCnty httpDown "d" wCsvCnty).map Prod.snd = .ok [] ∧
    (process_metadata cfgAll httpDown "d" wCsvCnty).map Prod.snd =
      .ok (resetIndex exTable) ∧
    ([] : List Row) ≠ resetIndex exTable :=
  ⟨by decide, by decide, by decide⟩

/-- C6: when the metadata download gets a non-success status, `download_file`
writes no file, and `process_metadata` (with no cached raw file and no cached
projection) fails with a `FileNotFoundError`-class condition on the
subsequent read, propagated to the caller. -/
theorem metadata_failed_download_raises_fnf (cfg : Config)
    (http : String → Option FileContent) (d : String) (w : World) (p : String)
    (hr : fsExists w.fs (rawPath d) = false)
    (hc : fsExists w.fs (csvPath cfg d) = false)
    (hh : http baselineUrl = none) :
    process_metadata cfg http d w = .error (.fileNotFound (rawPath d)) ∧
    (download_file http baselineUrl p w).fs = w.fs := by
  have hln := fsLookup_eq_none w.fs (rawPath d) hr
  constructor
  · simp [process_metadata, metaStep1, hr, download_file, hh, hc, read_parquet, hln]
  · simp [download_file, hh]

theorem metadata_failed_download_raises_fnf_witness :
    process_metadata cfgCA httpDown "d" wEmpty = .error (.fileNotFound (rawPath "d")) ∧
    (download_file httpDown baselineUrl (rawPath "d") wEmpty).fs = wEmpty.fs :=
  metadata_failed_download_raises_fnf cfgCA httpDown "d" wEmpty (rawPath "d")
    rfl rfl rfl

/-- C8: after a successful `process_building_time_series` run, running it
again over the same row set and destination returns the identical path and
id lists; and when every produced file exists after the first run (the
successful case), the second run is a complete no-op: it returns the world
unchanged — no network access and no file rewritten (tasks whose canonical
file exists short-circuit). -/
theorem ts_fanout_idempotent (cfg : Config)
    (http : String → Option FileContent) (rows : List Row) (d : String)
    (w w₁ : World) (ps bs : List String)
    (h₁ : process_building_time_series cfg http rows d w = .ok (w₁, (ps, bs))) :
    (process_building_time_series cfg http rows d w₁).map Prod.snd =
      .ok (ps, bs) ∧
    ((∀ p ∈ ps, fsExists w₁.fs p = true) →
      process_building_time_series cfg http rows d w₁ = .ok (w₁, (ps, bs))) := by
  unfold process_building_time_series at h₁ ⊢
  cases hrt : runTasks cfg http d w rows with
  | error e => rw [hrt] at h₁; cases h₁
  | ok z =>
    obtain ⟨w₁', res⟩ := z
    rw [hrt] at h₁
    dsimp only at h₁
    cases h₁
    obtain ⟨w₂, hrt2, hsub2, hnoop⟩ :=
      runTasks_rerun cfg http d rows w _ res _ hrt (fun q hq => hq)
    constructor
    · rw [hrt2]
      rfl
    · intro hall
      have hw : w₂ = w₁ := hnoop (fun pr hpr =>
        hall pr.1 (List.mem_map_of_mem _ hpr))
      rw [hrt2, hw]

theorem ts_fanout_idempotent_witness :
    process_building_time_series cfgAll httpDown exTable "ts" wTs =
      .ok (wTs, (["ts/bldg_id-1-upgrade-0.parquet",
                  "ts/bldg_id-2-upgrade-0.parquet"], ["1", "2"])) :=
  (ts_fanout_idempotent cfgAll httpDown exTable "ts" wTs wTs
    ["ts/bldg_id-1-upgrade-0.parquet", "ts/bldg_id-2-upgrade-0.parquet"]
    ["1", "2"] (by decide)).2 (by decide)

/-- C9: when the canonical time-series file for a row's building id already
exists, `download_task` returns the path/id pair with the world unchanged —
no URL is composed, no network request is made, and the `"in.state"` column
is never consulted (so it may be absent); on a cache miss a row lacking
`"in.state"` fails with a `KeyError`. -/
theorem download_task_cached_skips_state (cfg : Config)
    (http : String → Option FileContent) (d : String) (w : World) (row : Row)
    (v : Value) (hb : Row.find row "bldg_id" = some v) :
    (fsExists w.fs (tsPath d v.toPyStr cfg.upgrade) = true →
      download_task cfg http d w row = .ok (w, tsPath d v.toPyStr cfg.upgrade, v.toPyStr)) ∧
    (fsExists w.fs (tsPath d v.toPyStr cfg.upgrade) = false →
      Row.find row "in.state" = none →
      download_task cfg http d w row = .error (.keyError "in.state")) := by
  constructor
  · intro hx
    simp [download_task, hb, hx]
  · intro hx hs
    simp [download_task, hb, hx, hs]

theorem download_task_cached_skips_state_witness :
    download_task cfgAll httpDown "ts" wTs3 rowNoState =
      .ok (wTs3, tsPath "ts" "3" "0", "3") ∧
    download_task cfgAll httpDown "ts" wEmpty rowNoState =
      .error (.keyError "in.state") :=
  ⟨(download_task_cached_skips_state cfgAll httpDown "ts" wTs3 rowNoState
      (Value.int 3) (by decide)).1 (by decide),
   (download_task_cached_skips_state cfgAll httpDown "ts" wEmpty rowNoState
      (Value.int 3) (by decide)).2 (by decide) (by decide)⟩

/-- C10: the constructor creates the base directory with a single-level,
non-recursive `mkdir`: an existing base directory leaves the filesystem
unchanged, an existing parent yields exactly one new directory, and a
missing parent raises a `FileNotFoundError`-class condition instead of
creating intermediate directories. -/
theorem init_mkdir_single_level (st cn bt up : String) (base : List String)
    (dirs : List (List String)) :
    (base ∈ dirs →
      initProcessor st cn bt up base dirs = .ok (dirs, ⟨st, cn, bt, up, base⟩)) ∧
    (base ∉ dirs → base.dropLast ∈ dirs →
      initProcessor st cn bt up base dirs = .ok (base :: dirs, ⟨st, cn, bt, up, base⟩)) ∧
    (base ∉ dirs → base.dropLast ∉ dirs →
      initProcessor st cn bt up base dirs =
        .error (.fileNotFound (String.intercalate "/" base))) := by
  refine ⟨fun h => ?_, fun h hp => ?_, fun h hp => ?_⟩
  · simp [initProcessor, h]
  · simp [initProcessor, mkdirSingle, h, hp]
  · simp [initProcessor, mkdirSingle, h, hp]

theorem init_mkdir_single_level_witness :
    initProcessor "CA" "All" "All" "0" ["a", "b"] [["a", "b"]] =
      .ok ([["a", "b"]], ⟨"CA", "All", "All", "0", ["a", "b"]⟩) ∧
    initProcessor "CA" "All" "All" "0" ["a", "b"] [["a"]] =
      .ok ([["a", "b"], ["a"]], ⟨"CA", "All", "All", "0", ["a", "b"]⟩) ∧
    initProcessor "CA" "All" "All" "0" ["a", "b"] [] =
      .error (.fileNotFound "a/b") :=
  ⟨(init_mkdir_single_level "CA" "All" "All" "0" ["a", "b"] [["a", "b"]]).1 (by decide),
   (init_mkdir_single_level "CA" "All" "All" "0" ["a", "b"] [["a"]]).2.1 (by decide) (by decide),
   (init_mkdir_single_level "CA" "All" "All" "0" ["a", "b"] []).2.2 (by decide) (by decide)⟩

end ComStock
